import Mathlib

/-!
Verification of the Solar-Logger backup reader (`src/classes/backup_classes.py`)
against its natural-language specification.

The Python code is shallowly embedded: each Python string primitive used by
`BackupReader` (`str.strip`, `str.split`, `int(...)`, `bytearray.fromhex`,
`datetime.strptime` for the two fixed formats, and the `COPY` regex) is
translated to an executable Lean function over `List Char` / `String`, and the
mutable reader object is translated to explicit state passing over
`ReaderState`, with observable effects (logging, queue loads) reified as an
event list.  The bounded backpressure queue lives in a repository file that is
not part of the sources here, so it is modelled from the specification's
contract (see `BoundedQueue`).
-/

namespace SolarLogger

/-! ## Python string primitives -/

/-- Python whitespace characters relevant to `str.strip`, `int()` and
`bytes.fromhex` for ASCII input: `' '`, `\t`, `\n`, `\r`, `\v`, `\f`. -/
def isPyWs (c : Char) : Bool :=
  c = ' ' || c = '\t' || c = '\n' || c = '\r' || c = '\x0b' || c = '\x0c'

/-- Strip leading and trailing Python whitespace from a character list
(`str.strip()`). -/
def stripList (cs : List Char) : List Char :=
  ((cs.dropWhile isPyWs).reverse.dropWhile isPyWs).reverse

/-- Python `str.strip()` on a `String`. -/
def pyStrip (s : String) : String := String.mk (stripList s.data)

/-- Split a character list on a separator character with Python `str.split(sep)`
semantics: no collapsing, and the empty string yields one empty field. -/
def splitOnChar (sep : Char) : List Char → List (List Char)
  | [] => [[]]
  | c :: cs =>
    if c = sep then [] :: splitOnChar sep cs
    else
      match splitOnChar sep cs with
      | [] => [[c]]
      | g :: gs => (c :: g) :: gs

/-- Python `line.split("\t")`. -/
def pySplitTab (s : String) : List String :=
  (splitOnChar '\t' s.data).map String.mk

/-- Test that `p` occurs at the start of `s` (Python `str.startswith`). -/
def listStarts : List Char → List Char → Bool
  | [], _ => true
  | _ :: _, [] => false
  | c :: ps, d :: ds => c == d && listStarts ps ds

/-- Python `s.startswith(p)`. -/
def pyStartsWith (s p : String) : Bool := listStarts p.data s.data

/-- Numeric value of a decimal digit character. -/
def digitVal (c : Char) : Nat := c.toNat - '0'.toNat

/-- Value of a list of decimal digit characters. -/
def natOfDigits (ds : List Char) : Nat :=
  ds.foldl (fun acc c => acc * 10 + digitVal c) 0

/-- Maximal leading run of decimal digits, paired with the remainder. -/
def digitSpan : List Char → List Char × List Char
  | [] => ([], [])
  | c :: cs =>
    if c.isDigit then
      let p := digitSpan cs
      (c :: p.1, p.2)
    else ([], c :: cs)

/-- Digits-with-underscores body of a Python integer literal: underscores may
appear only singly and only between digits.  `some` is the decimal value
when the whole list is a valid body. -/
def digitsUndAux (acc : Nat) : List Char → Option Nat
  | [] => some acc
  | '_' :: c :: cs =>
    if c.isDigit then digitsUndAux (acc * 10 + digitVal c) cs else none
  | ['_'] => none
  | c :: cs =>
    if c.isDigit then digitsUndAux (acc * 10 + digitVal c) cs else none

/-- Nonempty digits-with-underscores sequence (first char must be a digit). -/
def digitsUnd : List Char → Option Nat
  | [] => none
  | c :: cs => if c.isDigit then digitsUndAux (digitVal c) cs else none

/-- Python `int(s)` for a decimal string: optional surrounding whitespace,
optional sign, then digits with optional single underscores between digits.
`none` models the `ValueError`. -/
def pyInt (s : String) : Option Int :=
  match stripList s.data with
  | '+' :: rest => (digitsUnd rest).map Int.ofNat
  | '-' :: rest => (digitsUnd rest).map (fun n => -(Int.ofNat n))
  | rest => (digitsUnd rest).map Int.ofNat

/-- Value of a hexadecimal digit character, if it is one. -/
def hexVal (c : Char) : Option Nat :=
  if c.isDigit then some (digitVal c)
  else if 'a' ≤ c ∧ c ≤ 'f' then some (c.toNat - 'a'.toNat + 10)
  else if 'A' ≤ c ∧ c ≤ 'F' then some (c.toNat - 'A'.toNat + 10)
  else none

/-- Python `bytearray.fromhex(s)`: ASCII whitespace may separate byte pairs;
each byte is two adjacent hex digits; `none` models the `ValueError` (odd
digit count or a non-hex character). -/
def pyFromHex : List Char → Option (List Nat)
  | [] => some []
  | c :: cs =>
    if isPyWs c then pyFromHex cs
    else
      match hexVal c, cs with
      | some hi, d :: cs' =>
        match hexVal d with
        | some lo => (pyFromHex cs').map (fun bs => (hi * 16 + lo) :: bs)
        | none => none
      | _, _ => none

/-! ## `datetime.strptime` for the two formats used by the reader -/

/-- Naive datetime produced by `datetime.strptime`. -/
structure PyDateTime where
  year : Nat
  month : Nat
  day : Nat
  hour : Nat
  minute : Nat
  second : Nat
  microsecond : Nat
  deriving DecidableEq, Repr

/-- Field `%Y`: exactly four decimal digits. -/
def parseY : List Char → Option (Nat × List Char)
  | a :: b :: c :: d :: rest =>
    if a.isDigit && b.isDigit && c.isDigit && d.isDigit then
      some (natOfDigits [a, b, c, d], rest)
    else none
  | _ => none

/-- A one-or-two-digit numeric field of `strptime` (`%m`, `%d`, `%H`, `%M`,
`%S`).  A two-digit run must have value in `[lo2, hi2]`; a single digit must be
at least `lo1`; a run of three or more digits never matches because the
following literal separator cannot match a digit. -/
def parse2Digit (lo1 lo2 hi2 : Nat) (cs : List Char) : Option (Nat × List Char) :=
  match digitSpan cs with
  | ([d], rest) =>
    if lo1 ≤ digitVal d then some (digitVal d, rest) else none
  | ([a, b], rest) =>
    let v := digitVal a * 10 + digitVal b
    if lo2 ≤ v ∧ v ≤ hi2 then some (v, rest) else none
  | _ => none

/-- Exact literal character. -/
def parseChar (c : Char) : List Char → Option (List Char)
  | [] => none
  | d :: ds => if d = c then some ds else none

/-- A whitespace literal in a `strptime` format matches one or more whitespace
characters. -/
def parseWsRun : List Char → Option (List Char)
  | [] => none
  | c :: cs => if isPyWs c then some (cs.dropWhile isPyWs) else none

/-- Gregorian leap-year rule. -/
def isLeapYear (y : Nat) : Bool :=
  (y % 4 == 0 && y % 100 != 0) || y % 400 == 0

/-- Days in a month, as validated by the `datetime` constructor. -/
def daysInMonth (y m : Nat) : Nat :=
  if m = 2 then (if isLeapYear y then 29 else 28)
  else if m = 4 ∨ m = 6 ∨ m = 9 ∨ m = 11 then 30
  else 31

/-- Shared `"%Y-%m-%d %H:%M:%S"` core of both accepted formats, including the
calendar validation performed by the `datetime` constructor. -/
def parseDateTimeCore (cs : List Char) : Option (PyDateTime × List Char) := do
  let (y, r1) ← parseY cs
  let r2 ← parseChar '-' r1
  let (mo, r3) ← parse2Digit 1 1 12 r2
  let r4 ← parseChar '-' r3
  let (d, r5) ← parse2Digit 1 1 31 r4
  let r6 ← parseWsRun r5
  let (h, r7) ← parse2Digit 0 0 23 r6
  let r8 ← parseChar ':' r7
  let (mi, r9) ← parse2Digit 0 0 59 r8
  let r10 ← parseChar ':' r9
  let (s, r11) ← parse2Digit 0 0 59 r10
  if 1 ≤ y ∧ d ≤ daysInMonth y mo then
    some (⟨y, mo, d, h, mi, s, 0⟩, r11)
  else none

/-- Python `datetime.strptime(s, "%Y-%m-%d %H:%M:%S.%f")`: the core, a literal dot,
one to six fractional digits right-padded to microseconds, and nothing after
(the "unconverted data remains" check). -/
def pyStrptimeFrac (cs : List Char) : Option PyDateTime := do
  let (t, r) ← parseDateTimeCore cs
  let r2 ← parseChar '.' r
  match digitSpan r2 with
  | ([], _) => none
  | (ds, rest) =>
    if ds.length ≤ 6 ∧ rest = [] then
      some { t with microsecond := natOfDigits ds * 10 ^ (6 - ds.length) }
    else none

/-- Python `datetime.strptime(s, "%Y-%m-%d %H:%M:%S")`. -/
def pyStrptimeNoFrac (cs : List Char) : Option PyDateTime := do
  let (t, r) ← parseDateTimeCore cs
  if r = [] then some t else none

/-- The reader's timestamp parse (`backup_classes.py` lines 113-118): try the
fractional format first; on `ValueError` fall back to the second format. -/
def parseTimestampField (cs : List Char) : Option PyDateTime :=
  match pyStrptimeFrac cs with
  | some t => some t
  | none => pyStrptimeNoFrac cs

/-- An aware timestamp: the naive datetime with a fixed UTC offset attached by
`timestamp_utc.replace(tzinfo=tz.tzoffset("", timedelta(seconds=...)))` —
the clock fields are unchanged and the offset is a raw seconds count. -/
structure PyTimestamp where
  dt : PyDateTime
  tzOffsetSeconds : Int
  deriving DecidableEq, Repr

/-! ## The `COPY` table-start marker: `re.match(r"^COPY (\w+) \((.*)\)", line)` -/

/-- Python `\w` for ASCII input: letters, digits, underscore. -/
def isWordChar (c : Char) : Bool := c.isAlphanum || c = '_'

/-- Characters strictly before the last `')'` of the list, or `none` when no
`')'` occurs — the greedy `(.*)\)` group of the marker regex. -/
def beforeLastParen : List Char → Option (List Char)
  | [] => none
  | c :: cs =>
    match beforeLastParen cs with
    | some inner => some (c :: inner)
    | none => if c = ')' then some [] else none

/-- Python `re.match(r"^COPY (\w+) \((.*)\)", line)`: on success, the captured table
name and the raw column-list text. -/
def matchCopy (line : String) : Option (String × String) :=
  if pyStartsWith line "COPY " then
    let rest := line.data.drop 5
    match rest.takeWhile isWordChar with
    | [] => none
    | nm =>
      match rest.dropWhile isWordChar with
      | ' ' :: '(' :: inner =>
        match beforeLastParen inner with
        | some content => some (String.mk nm, String.mk content)
        | none => none
      | _ => none
  else none

/-! ## The reader state machine -/

/-- The mutable instance fields of `BackupReader.__init__`. -/
structure ReaderState where
  g_col_raw : Option Nat
  g_col_timestamp : Option Nat
  g_col_tzoffset : Option Nat
  g_lines_read : Nat
  g_read_rows : Bool
  g_table_name : Option String
  deriving DecidableEq, Repr

/-- Initial reader state (`BackupReader.__init__`). -/
def initState : ReaderState :=
  { g_col_raw := none, g_col_timestamp := none, g_col_tzoffset := none,
    g_lines_read := 0, g_read_rows := false, g_table_name := none }

/-- Which external pymate decoder `_column_in` invokes. -/
inductive PacketKind where
  | dc | mx | fx
  deriving DecidableEq, Repr

/-- Observable effects of processing a line: log calls and
`MqttConnector.load_queue` calls. -/
inductive Event where
  | logBeginTable (name : String)
  | logColumns (cols : List String)
  | logSkipTable
  | logStartTable (name : Option String)
  | logEndTable (name : Option String)
  | logRows (n : Nat)
  | logProgress (n : Nat)
  | loadQueue (kind : PacketKind) (measurement : String) (timeField : PyTimestamp)
      (payload : List Nat) (log : Bool)
  | logEndBackup
  deriving DecidableEq, Repr

/-- An exception escaping the per-row extraction (`_extract_column_in` has no
handler, so any of these aborts the stream loop). -/
inductive RowError where
  | typeErrorNoneIndex
  | indexError
  | valueTimestamp
  | valueTzoffset
  | valueHex
  deriving DecidableEq, Repr

/-- Constant `LOG_INTERVAL_QUEUE` in the source. -/
def LOG_INTERVAL_QUEUE : Nat := 50

/-- Constant `LOG_INTERVAL_TABLE` in the source. -/
def LOG_INTERVAL_TABLE : Nat := 100000

/-- Source `BackupReader._column_in`: the table-name if/elif dispatch.  `dcName`
stands for the external constant `MqttTopics.dc_name` (defined in a module
outside these sources); all the embedding uses is that the same constant is
passed in every branch, which is what the source does. -/
def columnIn (dcName : String) (tableName : Option String) (rowNum : Nat)
    (timestamp : PyTimestamp) (rawPacket : List Nat) : List Event :=
  if tableName = some "dc_status" then
    [Event.loadQueue PacketKind.dc dcName timestamp rawPacket
      (rowNum % LOG_INTERVAL_QUEUE == 0)]
  else if tableName = some "mx_status" then
    [Event.loadQueue PacketKind.mx dcName timestamp rawPacket
      (rowNum % LOG_INTERVAL_QUEUE == 0)]
  else if tableName = some "mx_logpage" then []
  else if tableName = some "fx_status" then
    [Event.loadQueue PacketKind.fx dcName timestamp rawPacket
      (rowNum % LOG_INTERVAL_QUEUE == 0)]
  else []

/-- Source `BackupReader._extract_column_in`: increment `g_lines_read`, split the row
on tabs, index the three cached columns, parse timestamp / tzoffset / hex
payload, and dispatch.  Any failure is an uncaught exception, returned as
`some RowError` together with the state as mutated so far. -/
def extractColumnIn (dcName : String) (st0 : ReaderState) (line : String) :
    ReaderState × List Event × Option RowError :=
  let st := { st0 with g_lines_read := st0.g_lines_read + 1 }
  let cells := pySplitTab line
  match st.g_col_timestamp with
  | none => (st, [], some RowError.typeErrorNoneIndex)
  | some iT =>
    match cells.get? iT with
    | none => (st, [], some RowError.indexError)
    | some tsField =>
      match st.g_col_tzoffset with
      | none => (st, [], some RowError.typeErrorNoneIndex)
      | some iZ =>
        match cells.get? iZ with
        | none => (st, [], some RowError.indexError)
        | some tzField =>
          match st.g_col_raw with
          | none => (st, [], some RowError.typeErrorNoneIndex)
          | some iR =>
            match cells.get? iR with
            | none => (st, [], some RowError.indexError)
            | some rawField =>
              match parseTimestampField tsField.data with
              | none => (st, [], some RowError.valueTimestamp)
              | some dt =>
                match pyInt tzField with
                | none => (st, [], some RowError.valueTzoffset)
                | some off =>
                  match pyFromHex (rawField.data.drop 3) with
                  | none => (st, [], some RowError.valueHex)
                  | some packet =>
                    let evs :=
                      (if st.g_lines_read % LOG_INTERVAL_TABLE == 0 then
                        [Event.logProgress st.g_lines_read]
                      else []) ++
                      columnIn dcName st.g_table_name st.g_lines_read
                        ⟨dt, off⟩ packet
                    (st, evs, none)

/-- Clean one declared column token: `c.replace('"', "").strip()`. -/
def cleanCols (colsStr : String) : List String :=
  (splitOnChar ',' colsStr.data).map
    (fun cs => String.mk (stripList (cs.filter (fun c => c ≠ '"'))))

/-- Lookup in `{k: i for i, k in enumerate(cols)}`: the LAST index whose
column equals the key (later dict entries overwrite earlier ones). -/
def dictLookupAux (k : String) : List String → Nat → Option Nat → Option Nat
  | [], _, acc => acc
  | c :: cs, i, acc => dictLookupAux k cs (i + 1) (if c = k then some i else acc)

/-- Index of `k` in the column dictionary built by `_extract_start_table`. -/
def dictLookup (cols : List String) (k : String) : Option Nat :=
  dictLookupAux k cols 0 none

/-- Source `BackupReader._extract_start_table`: set `g_table_name`, clean the column
list, look up the three required columns in order (each successful lookup is
cached before the next may fail), and on success set `g_read_rows` and reset
`g_lines_read`.  The `Bool` is `false` when the `KeyError` was raised (the
caller catches it and continues). -/
def extractStartTable (st : ReaderState) (name colsStr : String) :
    ReaderState × List Event × Bool :=
  let st1 := { st with g_table_name := some name }
  let cols := cleanCols colsStr
  let evs := [Event.logBeginTable name, Event.logColumns cols]
  match dictLookup cols "timestamp" with
  | none => (st1, evs ++ [Event.logSkipTable], false)
  | some iT =>
    let st2 := { st1 with g_col_timestamp := some iT }
    match dictLookup cols "tzoffset" with
    | none => (st2, evs ++ [Event.logSkipTable], false)
    | some iZ =>
      let st3 := { st2 with g_col_tzoffset := some iZ }
      match dictLookup cols "raw_packet" with
      | none => (st3, evs ++ [Event.logSkipTable], false)
      | some iR =>
        ({ st3 with
            g_col_raw := some iR
            g_read_rows := true
            g_lines_read := 0 }, evs, true)

/-- Result of processing one line of the loop body of `read_compressed_xz`. -/
structure StepResult where
  state : ReaderState
  events : List Event
  error : Option RowError
  halt : Bool
  deriving DecidableEq, Repr

/-- One iteration of the `for line_raw in open_file` loop body. -/
def processLine (dcName : String) (st : ReaderState) (rawLine : String) :
    StepResult :=
  let line := pyStrip rawLine
  if st.g_read_rows then
    if line = "\\." ∨ line = "" then
      { state := { st with g_read_rows := false },
        events := [Event.logEndTable st.g_table_name,
                   Event.logRows st.g_lines_read],
        error := none, halt := false }
    else
      let r := extractColumnIn dcName st line
      { state := r.1, events := r.2.1, error := r.2.2, halt := false }
  else if pyStartsWith line "COPY " then
    match matchCopy line with
    | none => { state := st, events := [], error := none, halt := false }
    | some (name, colsStr) =>
      let r := extractStartTable st name colsStr
      if r.2.2 then
        { state := r.1,
          events := r.2.1 ++ [Event.logStartTable r.1.g_table_name],
          error := none, halt := false }
      else
        { state := r.1, events := r.2.1, error := none, halt := false }
  else if pyStartsWith line "-- Completed" then
    { state := st, events := [Event.logEndBackup], error := none, halt := true }
  else
    { state := st, events := [], error := none, halt := false }

/-- Result of running the loop over a whole line stream. -/
structure RunResult where
  state : ReaderState
  events : List Event
  error : Option RowError
  deriving DecidableEq, Repr

/-- The loop of `read_compressed_xz` over a list of (already decoded) raw
lines: an uncaught row exception aborts the run; the end-of-backup marker
breaks out of the loop. -/
def runLines (dcName : String) (st : ReaderState) : List String → RunResult
  | [] => { state := st, events := [], error := none }
  | l :: ls =>
    let r := processLine dcName st l
    match r.error with
    | some e => { state := r.state, events := r.events, error := some e }
    | none =>
      if r.halt then { state := r.state, events := r.events, error := none }
      else
        let rest := runLines dcName r.state ls
        { state := rest.state, events := r.events ++ rest.events,
          error := rest.error }

/-- Source `BackupReader.read_compressed_xz` from a fresh reader, with the stream
already decompressed and split into lines. -/
def readCompressedXz (dcName : String) (lines : List String) : RunResult :=
  runLines dcName initState lines

/-! ## Event observers -/

/-- Measurement names of the `load_queue` calls among the events. -/
def loadMeasurements (evs : List Event) : List String :=
  evs.filterMap fun e =>
    match e with
    | Event.loadQueue _ m _ _ _ => some m
    | _ => none

/-- Time fields of the `load_queue` calls among the events. -/
def loadTimeFields (evs : List Event) : List PyTimestamp :=
  evs.filterMap fun e =>
    match e with
    | Event.loadQueue _ _ t _ _ => some t
    | _ => none

/-- Payloads of the `load_queue` calls among the events. -/
def loadPayloads (evs : List Event) : List (List Nat) :=
  evs.filterMap fun e =>
    match e with
    | Event.loadQueue _ _ _ p _ => some p
    | _ => none

/-- Row-count log lines (`"Read {n} rows"`) among the events. -/
def rowsLogs (evs : List Event) : List Nat :=
  evs.filterMap fun e =>
    match e with
    | Event.logRows n => some n
    | _ => none

/-- The cleaned column list is missing at least one of the three required
columns, i.e. `_extract_start_table` raises `KeyError`. -/
def requiredMissing (cols : List String) : Bool :=
  (dictLookup cols "timestamp").isNone ||
  (dictLookup cols "tzoffset").isNone ||
  (dictLookup cols "raw_packet").isNone

/-- The (stripped) line is a table-start marker that matches the `COPY` regex
and declares all three required columns. -/
def isValidStart (l : String) : Bool :=
  match matchCopy (pyStrip l) with
  | some (_, colsStr) => !(requiredMissing (cleanCols colsStr))
  | none => false

/-! ## The bounded backpressure queue

Modelled from the spec: the queue implementation (`MqttConnector.load_queue` /
the threaded queue in `mqtt_classes.py`) is not among the sources; only its
test is.  The model follows §4.4 of the specification: a FIFO of fixed
capacity; `enqueue` blocks the caller while `length == capacity` (modelled as
the operation being disabled, returning `none`), then appends; `dequeue`
blocks while `length == 0`, then removes and returns the oldest item. -/

/-- Modelled from the spec: BoundedQueue state — an ordered sequence of items
and a fixed positive-or-zero capacity (§3, "BoundedQueue state"). -/
structure BoundedQueue (α : Type) where
  capacity : Nat
  items : List α
  deriving DecidableEq, Repr

/-- Modelled from the spec: `enqueue(item)` blocks while `length == capacity`
(`none` = caller blocked), then appends the item at the back. -/
def enqueue {α : Type} (q : BoundedQueue α) (a : α) : Option (BoundedQueue α) :=
  if q.capacity ≤ q.items.length then none
  else some { q with items := q.items ++ [a] }

/-- Modelled from the spec: `dequeue()` blocks while `length == 0` (`none` =
caller blocked), then removes and returns the oldest item. -/
def dequeue {α : Type} (q : BoundedQueue α) : Option (α × BoundedQueue α) :=
  match q.items with
  | [] => none
  | a :: rest => some (a, { q with items := rest })

/-- A queue operation requested by a producer or consumer thread. -/
inductive QOp (α : Type) where
  | enq (a : α)
  | deq
  deriving DecidableEq, Repr

/-- Outcome of a serialized schedule of queue operations: the final queue, the
successfully enqueued items in order, and the dequeued items in order.  An
operation that would block does not complete and contributes nothing. -/
structure QueueRun (α : Type) where
  final : BoundedQueue α
  enqs : List α
  deqs : List α
  deriving DecidableEq, Repr

/-- Run a serialized schedule of operations against the queue. -/
def runQueue {α : Type} (q : BoundedQueue α) : List (QOp α) → QueueRun α
  | [] => { final := q, enqs := [], deqs := [] }
  | QOp.enq a :: ops =>
    match enqueue q a with
    | none => runQueue q ops
    | some q' =>
      let r := runQueue q' ops
      { final := r.final, enqs := a :: r.enqs, deqs := r.deqs }
  | QOp.deq :: ops =>
    match dequeue q with
    | none => runQueue q ops
    | some (a, q') =>
      let r := runQueue q' ops
      { final := r.final, enqs := r.enqs, deqs := a :: r.deqs }

/-! # Theorems -/

/-! ## Bounded queue lemmas -/

/-- Enqueue is disabled (the caller blocks) exactly when the queue is full. -/
theorem bq_enqueue_none_iff {α : Type} (q : BoundedQueue α) (a : α) :
    enqueue q a = none ↔ q.capacity ≤ q.items.length := by
  unfold enqueue
  split <;> simp_all

/-- A completed enqueue appends the item at the back, keeps the capacity, and
respects the bound. -/
theorem bq_enqueue_some {α : Type} (q : BoundedQueue α) (a : α)
    (q' : BoundedQueue α) (h : enqueue q a = some q') :
    q'.items = q.items ++ [a] ∧ q'.capacity = q.capacity ∧
      q.items.length < q.capacity := by
  unfold enqueue at h
  split at h
  · exact absurd h (by simp)
  · cases h
    refine ⟨rfl, rfl, ?_⟩
    omega

/-- Dequeue is disabled (the caller blocks) exactly when the queue is empty. -/
theorem bq_dequeue_none_iff {α : Type} (q : BoundedQueue α) :
    dequeue q = none ↔ q.items = [] := by
  unfold dequeue
  split <;> simp_all

/-- A completed dequeue removes and returns the oldest item (the head of the
FIFO sequence) and keeps the capacity. -/
theorem bq_dequeue_some {α : Type} (q : BoundedQueue α) (a : α)
    (q' : BoundedQueue α) (h : dequeue q = some (a, q')) :
    q.items = a :: q'.items ∧ q'.capacity = q.capacity := by
  unfold dequeue at h
  split at h
  · exact absurd h (by simp)
  · rename_i x rest heq
    cases h
    exact ⟨heq, rfl⟩

/-- Capacity is constant along any schedule. -/
theorem bq_runQueue_capacity {α : Type} (ops : List (QOp α)) :
    ∀ q : BoundedQueue α, (runQueue q ops).final.capacity = q.capacity := by
  induction ops with
  | nil => intro q; rfl
  | cons op ops ih =>
    intro q
    cases op with
    | enq a =>
      simp only [runQueue]
      cases h : enqueue q a with
      | none => exact ih q
      | some q' =>
        have := (bq_enqueue_some q a q' h).2.1
        simp only []
        rw [ih q', this]
    | deq =>
      simp only [runQueue]
      cases h : dequeue q with
      | none => exact ih q
      | some p =>
        obtain ⟨x, q'⟩ := p
        have := (bq_dequeue_some q x q' h).2
        simp only []
        rw [ih q', this]

/-- The occupancy bound is an inductive invariant of any schedule. -/
theorem bq_runQueue_length_le {α : Type} (ops : List (QOp α)) :
    ∀ q : BoundedQueue α, q.items.length ≤ q.capacity →
      (runQueue q ops).final.items.length ≤ q.capacity := by
  induction ops with
  | nil => intro q h; exact h
  | cons op ops ih =>
    intro q h
    cases op with
    | enq a =>
      simp only [runQueue]
      cases heq : enqueue q a with
      | none => exact ih q h
      | some q' =>
        obtain ⟨hi, hc, hl⟩ := bq_enqueue_some q a q' heq
        have : q'.items.length ≤ q'.capacity := by
          rw [hi, hc]; simp; omega
        simp only []
        have := ih q' this
        rw [hc] at this
        exact this
    | deq =>
      simp only [runQueue]
      cases heq : dequeue q with
      | none => exact ih q h
      | some p =>
        obtain ⟨x, q'⟩ := p
        obtain ⟨hi, hc⟩ := bq_dequeue_some q x q' heq
        have : q'.items.length ≤ q'.capacity := by
          rw [hc]
          have : q.items.length = q'.items.length + 1 := by rw [hi]; rfl
          omega
        simp only []
        have := ih q' this
        rw [hc] at this
        exact this

/-- FIFO conservation: the items present initially followed by the items
successfully enqueued are exactly the items dequeued followed by the items
still in the queue — no duplication, no loss, order preserved. -/
theorem bq_runQueue_conserv {α : Type} (ops : List (QOp α)) :
    ∀ q : BoundedQueue α,
      q.items ++ (runQueue q ops).enqs =
        (runQueue q ops).deqs ++ (runQueue q ops).final.items := by
  induction ops with
  | nil => intro q; simp [runQueue]
  | cons op ops ih =>
    intro q
    cases op with
    | enq a =>
      simp only [runQueue]
      cases heq : enqueue q a with
      | none => exact ih q
      | some q' =>
        obtain ⟨hi, _, _⟩ := bq_enqueue_some q a q' heq
        simp only []
        have h' := ih q'
        rw [hi] at h'
        simpa [List.append_assoc] using h'
    | deq =>
      simp only [runQueue]
      cases heq : dequeue q with
      | none => exact ih q
      | some p =>
        obtain ⟨x, q'⟩ := p
        obtain ⟨hi, _⟩ := bq_dequeue_some q x q' heq
        simp only []
        have h' := ih q'
        rw [hi]
        simpa [List.append_assoc] using congrArg (x :: ·) h'

/-- C2.  For a `BoundedQueue` of fixed capacity `N`: the length never exceeds
`N`; `enqueue` blocks exactly while the length is `N`, and after a full queue
completes one `dequeue` the blocked enqueue completes; `dequeue` blocks
exactly while the queue is empty and returns the oldest item; along any
serialized schedule the initial items plus the successfully enqueued items
equal the dequeued items plus the remaining items — so from an empty queue, at
quiescence (queue drained) the successful enqueues and dequeues are the same
list: equal in number, FIFO order, each item consumed exactly once. -/
theorem bounded_queue_contract :
    (∀ (α : Type) (q : BoundedQueue α) (a : α),
      enqueue q a = none ↔ q.capacity ≤ q.items.length) ∧
    (∀ (α : Type) (q : BoundedQueue α) (a : α) (q' : BoundedQueue α),
      enqueue q a = some q' →
      q'.items = q.items ++ [a] ∧ q'.capacity = q.capacity ∧
        q'.items.length ≤ q'.capacity) ∧
    (∀ (α : Type) (q : BoundedQueue α), dequeue q = none ↔ q.items = []) ∧
    (∀ (α : Type) (q : BoundedQueue α) (a : α) (q' : BoundedQueue α),
      dequeue q = some (a, q') → q.items = a :: q'.items ∧
        q'.capacity = q.capacity) ∧
    (∀ (α : Type) (q : BoundedQueue α) (a x : α) (q' : BoundedQueue α),
      q.items.length = q.capacity →
      enqueue q a = none ∧
        (dequeue q = some (x, q') →
          ∃ q'', enqueue q' a = some q'' ∧ q''.items = q'.items ++ [a])) ∧
    (∀ (α : Type) (ops : List (QOp α)) (q : BoundedQueue α),
      q.items.length ≤ q.capacity →
      (runQueue q ops).final.items.length ≤ q.capacity) ∧
    (∀ (α : Type) (ops : List (QOp α)) (q : BoundedQueue α),
      q.items ++ (runQueue q ops).enqs =
        (runQueue q ops).deqs ++ (runQueue q ops).final.items) ∧
    (∀ (α : Type) (ops : List (QOp α)) (cap : Nat),
      (runQueue (⟨cap, []⟩ : BoundedQueue α) ops).final.items = [] →
      (runQueue (⟨cap, []⟩ : BoundedQueue α) ops).enqs =
        (runQueue (⟨cap, []⟩ : BoundedQueue α) ops).deqs) := by
  refine ⟨?_, ?_, ?_, ?_, ?_, ?_, ?_, ?_⟩
  · intro α q a; exact bq_enqueue_none_iff q a
  · intro α q a q' h
    obtain ⟨hi, hc, hl⟩ := bq_enqueue_some q a q' h
    refine ⟨hi, hc, ?_⟩
    rw [hi, hc]; simp; omega
  · intro α q; exact bq_dequeue_none_iff q
  · intro α q a q' h; exact bq_dequeue_some q a q' h
  · intro α q a x q' hfull
    refine ⟨(bq_enqueue_none_iff q a).mpr (le_of_eq hfull.symm), ?_⟩
    intro hdeq
    obtain ⟨hi, hc⟩ := bq_dequeue_some q x q' hdeq
    have hlen : q'.items.length + 1 = q.capacity := by
      rw [← hfull, hi]; rfl
    have hroom : ¬ q'.capacity ≤ q'.items.length := by rw [hc]; omega
    refine ⟨{ q' with items := q'.items ++ [a] }, ?_, rfl⟩
    unfold enqueue
    rw [if_neg hroom]
  · intro α ops q h; exact bq_runQueue_length_le ops q h
  · intro α ops q; exact bq_runQueue_conserv ops q
  · intro α ops cap h
    have := bq_runQueue_conserv ops (⟨cap, []⟩ : BoundedQueue α)
    rw [h] at this
    simpa using this

/-- Witness for `bounded_queue_contract` at capacity 2: the third enqueue on a
full queue of two blocks; after the schedule `enq 1, enq 2, enq 3, deq, deq`
from an empty queue the queue is drained and the successful enqueues equal the
dequeues. -/
theorem bounded_queue_contract_witness :
    (enqueue (⟨2, [5, 6]⟩ : BoundedQueue Nat) 7 = none) ∧
    (runQueue (⟨2, []⟩ : BoundedQueue Nat)
        [QOp.enq 1, QOp.enq 2, QOp.enq 3, QOp.deq, QOp.deq]).enqs =
      (runQueue (⟨2, []⟩ : BoundedQueue Nat)
        [QOp.enq 1, QOp.enq 2, QOp.enq 3, QOp.deq, QOp.deq]).deqs :=
  ⟨(bounded_queue_contract.1 Nat ⟨2, [5, 6]⟩ 7).mpr (by decide),
   bounded_queue_contract.2.2.2.2.2.2.2 Nat
     [QOp.enq 1, QOp.enq 2, QOp.enq 3, QOp.deq, QOp.deq] 2 (by decide)⟩

/-! ## Reader lemmas -/

/-- The method `_extract_column_in` always returns the state with `g_lines_read`
incremented and everything else untouched (the exception, if any, is raised
after the increment). -/
theorem extractColumnIn_state (dcName : String) (st : ReaderState) (line : String) :
    (extractColumnIn dcName st line).1 =
      { st with g_lines_read := st.g_lines_read + 1 } := by
  simp only [extractColumnIn]
  repeat' split
  all_goals rfl

/-- The method `_extract_column_in` either succeeds or produces no events: a failing row
is not logged before the exception escapes. -/
theorem extractColumnIn_events_or_ok (dcName : String) (st : ReaderState)
    (line : String) :
    (extractColumnIn dcName st line).2.1 = [] ∨
      (extractColumnIn dcName st line).2.2 = none := by
  simp only [extractColumnIn]
  repeat' split
  all_goals simp

/-- Every event emitted by `_column_in` is a `load_queue` call carrying the
measurement constant, the given timestamp and the given packet. -/
theorem columnIn_shape (dcName : String) (tn : Option String) (n : Nat)
    (ts : PyTimestamp) (p : List Nat) :
    ∀ e ∈ columnIn dcName tn n ts p,
      ∃ k lg, e = Event.loadQueue k dcName ts p lg := by
  unfold columnIn
  repeat' split
  all_goals simp
  all_goals
    by_cases h : n % LOG_INTERVAL_QUEUE = 0
    · exact ⟨_, Or.inr ⟨rfl, h⟩⟩
    · exact ⟨_, Or.inl ⟨rfl, h⟩⟩

/-- The method `_column_in` emits no row-count log events. -/
theorem rowsLogs_columnIn (dcName : String) (tn : Option String) (n : Nat)
    (ts : PyTimestamp) (p : List Nat) :
    rowsLogs (columnIn dcName tn n ts p) = [] := by
  unfold columnIn
  repeat' split
  all_goals simp [rowsLogs]

/-- The method `_column_in` emits no end-of-backup log. -/
theorem endBackup_not_in_columnIn (dcName : String) (tn : Option String)
    (n : Nat) (ts : PyTimestamp) (p : List Nat) :
    Event.logEndBackup ∉ columnIn dcName tn n ts p := by
  unfold columnIn
  repeat' split
  all_goals simp

/-- Every `load_queue` call made by `_column_in` carries the same measurement
name constant (`MqttTopics.dc_name`), for every table. -/
theorem loadMeasurements_columnIn (dcName : String) (tn : Option String)
    (n : Nat) (ts : PyTimestamp) (p : List Nat) :
    loadMeasurements (columnIn dcName tn n ts p) = [] ∨
      loadMeasurements (columnIn dcName tn n ts p) = [dcName] := by
  unfold columnIn
  repeat' split
  all_goals simp [loadMeasurements]

/-- Every `load_queue` call made by `_column_in` carries the timestamp it was
given, unchanged. -/
theorem loadTimeFields_columnIn (dcName : String) (tn : Option String)
    (n : Nat) (ts : PyTimestamp) (p : List Nat) :
    loadTimeFields (columnIn dcName tn n ts p) = [] ∨
      loadTimeFields (columnIn dcName tn n ts p) = [ts] := by
  unfold columnIn
  repeat' split
  all_goals simp [loadTimeFields]

/-- Every `load_queue` call made by `_column_in` carries the decoded packet it
was given, unchanged. -/
theorem loadPayloads_columnIn (dcName : String) (tn : Option String)
    (n : Nat) (ts : PyTimestamp) (p : List Nat) :
    loadPayloads (columnIn dcName tn n ts p) = [] ∨
      loadPayloads (columnIn dcName tn n ts p) = [p] := by
  unfold columnIn
  repeat' split
  all_goals simp [loadPayloads]

/-- The method `_extract_column_in` emits no row-count log events. -/
theorem rowsLogs_extractColumnIn (dcName : String) (st : ReaderState)
    (line : String) :
    rowsLogs (extractColumnIn dcName st line).2.1 = [] := by
  simp only [extractColumnIn]
  repeat' split
  all_goals simp [rowsLogs, List.filterMap_append, rowsLogs_columnIn]
  all_goals
    intro a ha
    obtain ⟨k, lg, rfl⟩ := columnIn_shape dcName _ _ _ _ a ha
    rfl

/-- The method `_extract_column_in` never emits the end-of-backup log. -/
theorem endBackup_not_in_extractColumnIn (dcName : String) (st : ReaderState)
    (line : String) :
    Event.logEndBackup ∉ (extractColumnIn dcName st line).2.1 := by
  simp only [extractColumnIn]
  repeat' split
  all_goals simp
  all_goals exact endBackup_not_in_columnIn dcName _ _ _ _

/-- On a column list with a required column missing, `_extract_start_table`
raises (`false`), leaves `g_read_rows` and `g_lines_read` untouched, logs the
skip, and makes no `load_queue` call. -/
theorem extST_missing (st : ReaderState) (name colsStr : String)
    (h : requiredMissing (cleanCols colsStr) = true) :
    (extractStartTable st name colsStr).2.2 = false ∧
    (extractStartTable st name colsStr).1.g_read_rows = st.g_read_rows ∧
    (extractStartTable st name colsStr).1.g_lines_read = st.g_lines_read ∧
    (extractStartTable st name colsStr).1.g_table_name = some name ∧
    Event.logSkipTable ∈ (extractStartTable st name colsStr).2.1 := by
  simp only [extractStartTable]
  repeat' split
  all_goals simp_all [requiredMissing]

/-- The method `_extract_start_table` itself never calls `load_queue`. -/
theorem loadMeasurements_extST (st : ReaderState) (name colsStr : String) :
    loadMeasurements (extractStartTable st name colsStr).2.1 = [] := by
  simp only [extractStartTable]
  repeat' split
  all_goals simp [loadMeasurements]

/-- On a column list that resolves all three required columns,
`_extract_start_table` caches the three indices, overwrites the table name,
sets the row-reading flag and resets the row counter, leaving the rest of the
state unchanged. -/
theorem extST_success (st : ReaderState) (name colsStr : String)
    (iT iZ iR : Nat)
    (hT : dictLookup (cleanCols colsStr) "timestamp" = some iT)
    (hZ : dictLookup (cleanCols colsStr) "tzoffset" = some iZ)
    (hR : dictLookup (cleanCols colsStr) "raw_packet" = some iR) :
    extractStartTable st name colsStr =
      ({ st with
          g_table_name := some name
          g_col_timestamp := some iT
          g_col_tzoffset := some iZ
          g_col_raw := some iR
          g_read_rows := true
          g_lines_read := 0 },
       [Event.logBeginTable name, Event.logColumns (cleanCols colsStr)],
       true) := by
  simp only [extractStartTable, hT, hZ, hR]

/-- The flag `requiredMissing` is false exactly when the three lookups succeed. -/
theorem requiredMissing_false_iff (cols : List String) :
    requiredMissing cols = false ↔
      (∃ iT, dictLookup cols "timestamp" = some iT) ∧
      (∃ iZ, dictLookup cols "tzoffset" = some iZ) ∧
      (∃ iR, dictLookup cols "raw_packet" = some iR) := by
  unfold requiredMissing
  cases hT : dictLookup cols "timestamp" <;>
    cases hZ : dictLookup cols "tzoffset" <;>
    cases hR : dictLookup cols "raw_packet" <;>
    simp [Option.isNone]

/-- Looking a key up in the enumerate-dictionary leaves the accumulator when
the key is absent. -/
theorem dictLookupAux_not_mem (k : String) :
    ∀ (cs : List String) (i : Nat) (acc : Option Nat),
      k ∉ cs → dictLookupAux k cs i acc = acc := by
  intro cs
  induction cs with
  | nil => intro i acc _; rfl
  | cons c cs ih =>
    intro i acc h
    have hc : ¬(c = k) := fun hck => h (hck ▸ List.mem_cons_self c cs)
    have hcs : k ∉ cs := fun hm => h (List.mem_cons_of_mem c hm)
    unfold dictLookupAux
    rw [if_neg hc]
    exact ih (i + 1) acc hcs

/-- Looking a present key up in the enumerate-dictionary yields an offset
position at which the key occurs. -/
theorem dictLookupAux_mem (k : String) :
    ∀ (cs : List String) (i : Nat) (acc : Option Nat),
      k ∈ cs →
      ∃ j, dictLookupAux k cs i acc = some (i + j) ∧ cs.get? j = some k := by
  intro cs
  induction cs with
  | nil => intro i acc h; exact absurd h (List.not_mem_nil k)
  | cons c cs ih =>
    intro i acc h
    by_cases hc : k ∈ cs
    · obtain ⟨j, hj1, hj2⟩ := ih (i + 1) (if c = k then some i else acc) hc
      refine ⟨j + 1, ?_, ?_⟩
      · unfold dictLookupAux
        rw [hj1]
        congr 1
        omega
      · simpa using hj2
    · have hck : c = k := by
        rcases List.mem_cons.mp h with h1 | h2
        · exact h1.symm
        · exact absurd h2 hc
      refine ⟨0, ?_, ?_⟩
      · unfold dictLookupAux
        rw [if_pos hck, dictLookupAux_not_mem k cs (i + 1) (some i) hc]
        simp
      · simp [hck]

/-- A present key resolves to a position at which it occurs. -/
theorem dictLookup_mem (cols : List String) (k : String) (h : k ∈ cols) :
    ∃ j, dictLookup cols k = some j ∧ cols.get? j = some k := by
  obtain ⟨j, hj1, hj2⟩ := dictLookupAux_mem k cols 0 none h
  exact ⟨j, by simpa using hj1, hj2⟩

/-- A successful `COPY` regex match implies the `startswith("COPY ")` guard. -/
theorem matchCopy_starts (l : String) (p : String × String)
    (h : matchCopy l = some p) : pyStartsWith l "COPY " = true := by
  unfold matchCopy at h
  split at h
  · assumption
  · exact absurd h (by simp)

/-- A line starting with `-- Completed` is neither the row terminator nor
empty. -/
theorem completedLine_not_terminator (s : String)
    (h : pyStartsWith s "-- Completed" = true) : s ≠ "\\." ∧ s ≠ "" := by
  constructor
  · intro he
    rw [he] at h
    exact absurd h (by decide)
  · intro he
    rw [he] at h
    exact absurd h (by decide)

/-- While seeking (row-reading flag off), a line that is not a valid
table-start marker keeps the flag off, never reaches `_column_in`, and raises
nothing. -/
theorem seek_step (dcName : String) (st : ReaderState) (l : String)
    (hseek : st.g_read_rows = false) (hval : isValidStart l = false) :
    (processLine dcName st l).state.g_read_rows = false ∧
    loadMeasurements (processLine dcName st l).events = [] ∧
    (processLine dcName st l).error = none := by
  have h1 : ¬(st.g_read_rows = true) := by simp [hseek]
  unfold processLine
  rw [if_neg h1]
  by_cases h2 : pyStartsWith (pyStrip l) "COPY " = true
  · rw [if_pos h2]
    cases hm : matchCopy (pyStrip l) with
    | none => simp [loadMeasurements, hseek]
    | some p =>
      obtain ⟨name, colsStr⟩ := p
      have hmiss : requiredMissing (cleanCols colsStr) = true := by
        unfold isValidStart at hval
        rw [hm] at hval
        simpa using hval
      obtain ⟨hok, hflag, _, _, _⟩ := extST_missing st name colsStr hmiss
      simp only []
      rw [if_neg (by rw [hok]; simp)]
      exact ⟨hflag.trans hseek, loadMeasurements_extST st name colsStr, rfl⟩
  · rw [if_neg h2]
    by_cases h3 : pyStartsWith (pyStrip l) "-- Completed" = true
    · rw [if_pos h3]
      exact ⟨hseek, by simp [loadMeasurements], rfl⟩
    · rw [if_neg h3]
      exact ⟨hseek, rfl, rfl⟩

/-- While seeking, a stream with no valid table-start marker keeps the flag
off, dispatches nothing, and raises nothing. -/
theorem seek_run (dcName : String) :
    ∀ (lines : List String) (st : ReaderState),
      st.g_read_rows = false →
      (∀ l ∈ lines, isValidStart l = false) →
      (runLines dcName st lines).state.g_read_rows = false ∧
      loadMeasurements (runLines dcName st lines).events = [] ∧
      (runLines dcName st lines).error = none := by
  intro lines
  induction lines with
  | nil => intro st hseek _; exact ⟨hseek, rfl, rfl⟩
  | cons l ls ih =>
    intro st hseek hall
    have hl : isValidStart l = false := hall l (List.mem_cons_self l ls)
    have hls : ∀ x ∈ ls, isValidStart x = false :=
      fun x hx => hall x (List.mem_cons_of_mem l hx)
    obtain ⟨hflag, hload, herr⟩ := seek_step dcName st l hseek hl
    simp only [runLines, herr]
    by_cases hh : (processLine dcName st l).halt = true
    · rw [if_pos hh]
      exact ⟨hflag, hload, rfl⟩
    · rw [if_neg hh]
      obtain ⟨f1, f2, f3⟩ := ih (processLine dcName st l).state hflag hls
      refine ⟨f1, ?_, f3⟩
      simp [loadMeasurements, List.filterMap_append] at hload f2 ⊢
      exact ⟨hload, f2⟩

/-- In the seeking state, a matching `COPY` line with a required column
missing is handled by the skip path: the `KeyError` is caught, the loop
continues (no halt, no error), and the step's result is exactly
`_extract_start_table`'s partial mutation and log output. -/
theorem processLine_skip (dcName : String) (st : ReaderState)
    (line name colsStr : String)
    (hseek : st.g_read_rows = false)
    (hm : matchCopy (pyStrip line) = some (name, colsStr))
    (hmiss : requiredMissing (cleanCols colsStr) = true) :
    processLine dcName st line =
      { state := (extractStartTable st name colsStr).1,
        events := (extractStartTable st name colsStr).2.1,
        error := none, halt := false } := by
  have h1 : ¬(st.g_read_rows = true) := by simp [hseek]
  have h2 := matchCopy_starts (pyStrip line) _ hm
  have hok := (extST_missing st name colsStr hmiss).1
  simp only [processLine, if_neg h1, if_pos h2, hm]
  rw [if_neg (by simp [hok])]

/-- In the seeking state, a matching `COPY` line with all three required
columns present starts the table: indices cached, flag set, counter reset,
begin/columns/start logs emitted, no halt, no error. -/
theorem processLine_start (dcName : String) (st : ReaderState)
    (line name colsStr : String) (iT iZ iR : Nat)
    (hseek : st.g_read_rows = false)
    (hm : matchCopy (pyStrip line) = some (name, colsStr))
    (hT : dictLookup (cleanCols colsStr) "timestamp" = some iT)
    (hZ : dictLookup (cleanCols colsStr) "tzoffset" = some iZ)
    (hR : dictLookup (cleanCols colsStr) "raw_packet" = some iR) :
    processLine dcName st line =
      { state := { st with
          g_table_name := some name
          g_col_timestamp := some iT
          g_col_tzoffset := some iZ
          g_col_raw := some iR
          g_read_rows := true
          g_lines_read := 0 },
        events := [Event.logBeginTable name,
                   Event.logColumns (cleanCols colsStr),
                   Event.logStartTable (some name)],
        error := none, halt := false } := by
  have h1 : ¬(st.g_read_rows = true) := by simp [hseek]
  have h2 := matchCopy_starts (pyStrip line) _ hm
  have hst := extST_success st name colsStr iT iZ iR hT hZ hR
  simp only [processLine, if_neg h1, if_pos h2, hm, hst]
  simp

/-- While reading rows, a non-terminator line goes through
`_extract_column_in` and the step neither halts nor ends the table. -/
theorem processLine_row (dcName : String) (st : ReaderState) (line : String)
    (hread : st.g_read_rows = true)
    (h1 : pyStrip line ≠ "\\.") (h2 : pyStrip line ≠ "") :
    processLine dcName st line =
      { state := (extractColumnIn dcName st (pyStrip line)).1,
        events := (extractColumnIn dcName st (pyStrip line)).2.1,
        error := (extractColumnIn dcName st (pyStrip line)).2.2,
        halt := false } := by
  simp only [processLine, if_pos hread]
  rw [if_neg (by simp [h1, h2])]

/-- The fully successful path of `_extract_column_in`: the state gets its
row-count increment and the dispatched events carry the parsed timestamp with
the raw integer offset attached and the hex-decoded payload. -/
theorem extractColumnIn_success (dcName : String) (st : ReaderState)
    (line : String) (iT iZ iR : Nat) (tsF tzF rawF : String)
    (dt : PyDateTime) (off : Int) (packet : List Nat)
    (hT : st.g_col_timestamp = some iT)
    (hZ : st.g_col_tzoffset = some iZ)
    (hR : st.g_col_raw = some iR)
    (hcT : (pySplitTab line).get? iT = some tsF)
    (hcZ : (pySplitTab line).get? iZ = some tzF)
    (hcR : (pySplitTab line).get? iR = some rawF)
    (hts : parseTimestampField tsF.data = some dt)
    (hoff : pyInt tzF = some off)
    (hhex : pyFromHex (rawF.data.drop 3) = some packet) :
    extractColumnIn dcName st line =
      ({ st with g_lines_read := st.g_lines_read + 1 },
       (if (st.g_lines_read + 1) % LOG_INTERVAL_TABLE == 0 then
          [Event.logProgress (st.g_lines_read + 1)]
        else []) ++
         columnIn dcName st.g_table_name (st.g_lines_read + 1)
           ⟨dt, off⟩ packet,
       none) := by
  simp only [extractColumnIn, hT, hZ, hR, hcT, hcZ, hcR, hts, hoff, hhex]

/-- In a list containing a key exactly once, any two positions of the key
coincide. -/
theorem get_unique_of_count_one {α : Type} [DecidableEq α] (k : α) :
    ∀ (l : List α) (j1 j2 : Nat), l.count k = 1 →
      l.get? j1 = some k → l.get? j2 = some k → j1 = j2 := by
  intro l
  induction l with
  | nil => intro j1 j2 _ h1 _; simp at h1
  | cons c cs ih =>
    intro j1 j2 hcount h1 h2
    by_cases hc : c = k
    · have hzero : cs.count k = 0 := by
        subst hc
        simp [List.count_cons] at hcount
        omega
      have hnot : k ∉ cs := by
        rw [← List.count_pos_iff]
        omega
      match j1, j2 with
      | 0, 0 => rfl
      | 0, m + 1 =>
        exact absurd (List.get?_mem (by simpa using h2)) hnot
      | m + 1, 0 =>
        exact absurd (List.get?_mem (by simpa using h1)) hnot
      | m + 1, n + 1 =>
        exact absurd (List.get?_mem (by simpa using h1)) hnot
    · have hone : cs.count k = 1 := by
        simpa [List.count_cons, hc] using hcount
      match j1, j2 with
      | 0, _ =>
        have h1' : c = k := by simpa using h1
        exact absurd h1' hc
      | m + 1, 0 =>
        have h2' : c = k := by simpa using h2
        exact absurd h2' hc
      | m + 1, n + 1 =>
        have := ih m n hone (by simpa using h1) (by simpa using h2)
        omega

/-! ## Claims -/

/-- C3.  For every `COPY` table-start line whose declared column list is
missing at least one of the three required columns, the whole table section
is skipped: the skip is logged, the machine stays in the seeking state (the
row-reading flag remains off), and no row-like line following that marker
reaches the payload dispatcher (no `load_queue` call is made) until the next
valid table-start marker; no exception escapes. -/
theorem copy_missing_column_skips_table (dcName : String) (st : ReaderState)
    (line name colsStr : String) (rest : List String)
    (hseek : st.g_read_rows = false)
    (hm : matchCopy (pyStrip line) = some (name, colsStr))
    (hmiss : requiredMissing (cleanCols colsStr) = true)
    (hrest : ∀ l ∈ rest, isValidStart l = false) :
    (runLines dcName st (line :: rest)).state.g_read_rows = false ∧
    Event.logSkipTable ∈ (runLines dcName st (line :: rest)).events ∧
    loadMeasurements (runLines dcName st (line :: rest)).events = [] ∧
    (runLines dcName st (line :: rest)).error = none := by
  have hp := processLine_skip dcName st line name colsStr hseek hm hmiss
  obtain ⟨hok, hflag, hlines, hname, hskip⟩ := extST_missing st name colsStr hmiss
  obtain ⟨f1, f2, f3⟩ := seek_run dcName rest
    (extractStartTable st name colsStr).1 (by rw [hflag]; exact hseek) hrest
  simp only [runLines, hp]
  refine ⟨f1, List.mem_append_left _ hskip, ?_, f3⟩
  simp [loadMeasurements, List.filterMap_append] at f2 ⊢
  have h0 := loadMeasurements_extST st name colsStr
  simp [loadMeasurements] at h0
  exact ⟨h0, f2⟩

/-- Witness for `copy_missing_column_skips_table`: a `COPY` marker whose
column list lacks all required columns, followed by a row-like line. -/
theorem copy_missing_column_skips_table_witness :
    (runLines "dc" initState
      ["COPY mx_logpage (id, data)", "1\t2\t3"]).state.g_read_rows = false ∧
    Event.logSkipTable ∈
      (runLines "dc" initState ["COPY mx_logpage (id, data)", "1\t2\t3"]).events ∧
    loadMeasurements
      (runLines "dc" initState ["COPY mx_logpage (id, data)", "1\t2\t3"]).events
      = [] ∧
    (runLines "dc" initState ["COPY mx_logpage (id, data)", "1\t2\t3"]).error
      = none :=
  copy_missing_column_skips_table "dc" initState "COPY mx_logpage (id, data)"
    "mx_logpage" "id, data" ["1\t2\t3"]
    (by decide) (by decide) (by decide) (by decide)

/-- C6.  For every valid `COPY` table-start line declaring each of the three
required columns exactly once, the cached column-index map resolves each
required name to exactly its zero-based position in the cleaned declared
column list (quotes stripped, whitespace trimmed), and the machine enters the
row-reading state. -/
theorem copy_columns_index_map (dcName : String) (st : ReaderState)
    (line name colsStr : String)
    (hseek : st.g_read_rows = false)
    (hm : matchCopy (pyStrip line) = some (name, colsStr))
    (hTc : (cleanCols colsStr).count "timestamp" = 1)
    (hZc : (cleanCols colsStr).count "tzoffset" = 1)
    (hRc : (cleanCols colsStr).count "raw_packet" = 1) :
    ∃ iT iZ iR,
      (processLine dcName st line).state =
        { st with
            g_table_name := some name
            g_col_timestamp := some iT
            g_col_tzoffset := some iZ
            g_col_raw := some iR
            g_read_rows := true
            g_lines_read := 0 } ∧
      (cleanCols colsStr).get? iT = some "timestamp" ∧
      (∀ j, (cleanCols colsStr).get? j = some "timestamp" → j = iT) ∧
      (cleanCols colsStr).get? iZ = some "tzoffset" ∧
      (∀ j, (cleanCols colsStr).get? j = some "tzoffset" → j = iZ) ∧
      (cleanCols colsStr).get? iR = some "raw_packet" ∧
      (∀ j, (cleanCols colsStr).get? j = some "raw_packet" → j = iR) := by
  have hTm : "timestamp" ∈ cleanCols colsStr := by
    rw [← List.count_pos_iff]; omega
  have hZm : "tzoffset" ∈ cleanCols colsStr := by
    rw [← List.count_pos_iff]; omega
  have hRm : "raw_packet" ∈ cleanCols colsStr := by
    rw [← List.count_pos_iff]; omega
  obtain ⟨iT, hT, hTg⟩ := dictLookup_mem _ _ hTm
  obtain ⟨iZ, hZ, hZg⟩ := dictLookup_mem _ _ hZm
  obtain ⟨iR, hR, hRg⟩ := dictLookup_mem _ _ hRm
  have hp := processLine_start dcName st line name colsStr iT iZ iR
    hseek hm hT hZ hR
  refine ⟨iT, iZ, iR, by rw [hp], hTg, ?_, hZg, ?_, hRg, ?_⟩
  · exact fun j hj => get_unique_of_count_one _ _ j iT hTc hj hTg
  · exact fun j hj => get_unique_of_count_one _ _ j iZ hZc hj hZg
  · exact fun j hj => get_unique_of_count_one _ _ j iR hRc hj hRg

/-- Witness for `copy_columns_index_map` on the canonical `dc_status`
marker. -/
theorem copy_columns_index_map_witness :
    ∃ iT iZ iR,
      (processLine "dc" initState
        "COPY dc_status (timestamp, tzoffset, raw_packet)").state =
        { initState with
            g_table_name := some "dc_status"
            g_col_timestamp := some iT
            g_col_tzoffset := some iZ
            g_col_raw := some iR
            g_read_rows := true
            g_lines_read := 0 } ∧
      (cleanCols "timestamp, tzoffset, raw_packet").get? iT =
        some "timestamp" ∧
      (∀ j, (cleanCols "timestamp, tzoffset, raw_packet").get? j =
        some "timestamp" → j = iT) ∧
      (cleanCols "timestamp, tzoffset, raw_packet").get? iZ =
        some "tzoffset" ∧
      (∀ j, (cleanCols "timestamp, tzoffset, raw_packet").get? j =
        some "tzoffset" → j = iZ) ∧
      (cleanCols "timestamp, tzoffset, raw_packet").get? iR =
        some "raw_packet" ∧
      (∀ j, (cleanCols "timestamp, tzoffset, raw_packet").get? j =
        some "raw_packet" → j = iR) :=
  copy_columns_index_map "dc" initState
    "COPY dc_status (timestamp, tzoffset, raw_packet)" "dc_status"
    "timestamp, tzoffset, raw_packet"
    (by decide) (by decide) (by decide) (by decide) (by decide)

/-- C9.  Every measurement enqueued by the dispatcher carries the single
measurement-name constant (`MqttTopics.dc_name`, here the parameter
`dcName`): in particular the `mx_status` and `fx_status` branches enqueue
under the very same name as the `dc_status` branch, and no table ever gets a
table-specific name. -/
theorem dispatch_measurement_always_dc_name (dcName : String)
    (tbl : Option String) (n : Nat) (ts : PyTimestamp) (p : List Nat) :
    loadMeasurements (columnIn dcName (some "mx_status") n ts p) = [dcName] ∧
    loadMeasurements (columnIn dcName (some "fx_status") n ts p) = [dcName] ∧
    loadMeasurements (columnIn dcName (some "dc_status") n ts p) = [dcName] ∧
    (loadMeasurements (columnIn dcName tbl n ts p) = [] ∨
      loadMeasurements (columnIn dcName tbl n ts p) = [dcName]) := by
  refine ⟨?_, ?_, ?_, loadMeasurements_columnIn dcName tbl n ts p⟩
  · unfold columnIn
    rw [if_neg (by decide), if_pos rfl]
    simp [loadMeasurements]
  · unfold columnIn
    rw [if_neg (by decide), if_neg (by decide), if_neg (by decide),
      if_pos rfl]
    simp [loadMeasurements]
  · unfold columnIn
    rw [if_pos rfl]
    simp [loadMeasurements]

/-- C10.  Skipping a table with a missing required column is not an atomic
no-op: the table name is always overwritten, and the required-column indices
resolved before the missing one (lookup order: timestamp, tzoffset,
raw_packet) keep their new values; but the row-reading flag stays off, the
lines-read counter is untouched, and no row is consumed as data. -/
theorem skip_table_partial_state_update (dcName : String) (st : ReaderState)
    (line name colsStr : String)
    (hseek : st.g_read_rows = false)
    (hm : matchCopy (pyStrip line) = some (name, colsStr))
    (hmiss : requiredMissing (cleanCols colsStr) = true) :
    ((dictLookup (cleanCols colsStr) "timestamp" = none →
        (processLine dcName st line).state =
          { st with g_table_name := some name }) ∧
      (∀ iT, dictLookup (cleanCols colsStr) "timestamp" = some iT →
        dictLookup (cleanCols colsStr) "tzoffset" = none →
        (processLine dcName st line).state =
          { st with
              g_table_name := some name
              g_col_timestamp := some iT }) ∧
      (∀ iT iZ, dictLookup (cleanCols colsStr) "timestamp" = some iT →
        dictLookup (cleanCols colsStr) "tzoffset" = some iZ →
        dictLookup (cleanCols colsStr) "raw_packet" = none →
        (processLine dcName st line).state =
          { st with
              g_table_name := some name
              g_col_timestamp := some iT
              g_col_tzoffset := some iZ })) ∧
    (processLine dcName st line).state.g_read_rows = false ∧
    (processLine dcName st line).state.g_lines_read = st.g_lines_read ∧
    (processLine dcName st line).state.g_table_name = some name ∧
    loadMeasurements (processLine dcName st line).events = [] ∧
    (processLine dcName st line).error = none := by
  have hp := processLine_skip dcName st line name colsStr hseek hm hmiss
  obtain ⟨hok, hflag, hlines, hname, _⟩ := extST_missing st name colsStr hmiss
  rw [hp]
  refine ⟨⟨?_, ?_, ?_⟩, hflag.trans hseek, hlines, hname,
    loadMeasurements_extST st name colsStr, rfl⟩
  · intro hTn
    simp only [extractStartTable, hTn]
  · intro iT hT hZn
    simp only [extractStartTable, hT, hZn]
  · intro iT iZ hT hZ hRn
    simp only [extractStartTable, hT, hZ, hRn]

/-- Witness for `skip_table_partial_state_update`: a table declaring
`timestamp` but not `tzoffset`; the cached timestamp index is updated even
though the table is skipped. -/
theorem skip_table_partial_state_update_witness :
    (processLine "dc" initState "COPY t1 (timestamp, raw_packet)").state =
      { initState with
          g_table_name := some "t1"
          g_col_timestamp := some 0 } :=
  (skip_table_partial_state_update "dc" initState
      "COPY t1 (timestamp, raw_packet)" "t1" "timestamp, raw_packet"
      (by decide) (by decide) (by decide)).1.2.1 0 (by decide) (by decide)

/-- The observer `loadPayloads` distributes over append. -/
theorem loadPayloads_append (a b : List Event) :
    loadPayloads (a ++ b) = loadPayloads a ++ loadPayloads b := by
  simp [loadPayloads]

/-- The observer `loadTimeFields` distributes over append. -/
theorem loadTimeFields_append (a b : List Event) :
    loadTimeFields (a ++ b) = loadTimeFields a ++ loadTimeFields b := by
  simp [loadTimeFields]

/-- The sampled progress log contributes no payloads. -/
theorem loadPayloads_progress (b : Prop) [Decidable b] (n : Nat) :
    loadPayloads (if b then [Event.logProgress n] else []) = [] := by
  split <;> simp [loadPayloads]

/-- The sampled progress log contributes no time fields. -/
theorem loadTimeFields_progress (b : Prop) [Decidable b] (n : Nat) :
    loadTimeFields (if b then [Event.logProgress n] else []) = [] := by
  split <;> simp [loadTimeFields]

/-- C1 (amended).  A decode failure of a data row while a table section is
open is fatal to the whole run, not just to that row: the exception escapes
`read_compressed_xz` with nothing logged for the failure, and no later line
of the stream is processed. -/
theorem row_decode_error_aborts_run (dcName : String) (st : ReaderState)
    (line : String) (rest : List String) (e : RowError)
    (hread : st.g_read_rows = true)
    (h1 : pyStrip line ≠ "\\.") (h2 : pyStrip line ≠ "")
    (herr : (extractColumnIn dcName st (pyStrip line)).2.2 = some e) :
    runLines dcName st (line :: rest) =
      { state := { st with g_lines_read := st.g_lines_read + 1 },
        events := [], error := some e } := by
  have hp := processLine_row dcName st line hread h1 h2
  have hev : (extractColumnIn dcName st (pyStrip line)).2.1 = [] := by
    rcases extractColumnIn_events_or_ok dcName st (pyStrip line) with h | h
    · exact h
    · rw [herr] at h; cases h
  simp only [runLines, hp, herr, hev, extractColumnIn_state]

/-- Witness for `row_decode_error_aborts_run`: a row with too few tab-separated
fields aborts the run before the following line is seen. -/
theorem row_decode_error_aborts_run_witness :
    runLines "dc"
      ⟨some 2, some 0, some 1, 0, true, some "dc_status"⟩
      ["bad row", "2020-01-01 00:00:00\t43200\t\\\\x00112233"] =
      { state := ⟨some 2, some 0, some 1, 1, true, some "dc_status"⟩,
        events := [], error := some RowError.indexError } :=
  row_decode_error_aborts_run "dc"
    ⟨some 2, some 0, some 1, 0, true, some "dc_status"⟩
    "bad row" ["2020-01-01 00:00:00\t43200\t\\\\x00112233"]
    RowError.indexError (by decide) (by decide) (by decide) (by decide)

/-- Counterexample to C1 as stated: in a stream with an undecodable row
followed by a perfectly valid row, the run ends with an uncaught error and
the valid row is never dispatched — processing does not continue with the
next line, and the failure is not logged (no events are emitted for it). -/
theorem row_decode_error_not_recovered_cex :
    (readCompressedXz "dc"
      ["COPY dc_status (timestamp, tzoffset, raw_packet)",
       "bad row",
       "2020-01-01 00:00:00\t43200\t\\\\x00112233"]).error =
      some RowError.indexError ∧
    loadMeasurements (readCompressedXz "dc"
      ["COPY dc_status (timestamp, tzoffset, raw_packet)",
       "bad row",
       "2020-01-01 00:00:00\t43200\t\\\\x00112233"]).events = [] :=
  ⟨rfl, rfl⟩

/-- C4 (amended).  The end-of-backup marker stops the loop only in the
seeking state.  While a table section is open, a line starting with
`-- Completed` is consumed as a data row: the step never halts the producer
and never logs the end of the backup, and no `rows_read` count is logged by
that step. -/
theorem completed_marker_ignored_while_reading (dcName : String)
    (st : ReaderState) (line : String)
    (hread : st.g_read_rows = true)
    (hstart : pyStartsWith (pyStrip line) "-- Completed" = true) :
    (processLine dcName st line).halt = false ∧
    Event.logEndBackup ∉ (processLine dcName st line).events ∧
    rowsLogs (processLine dcName st line).events = [] := by
  obtain ⟨h1, h2⟩ := completedLine_not_terminator _ hstart
  have hp := processLine_row dcName st line hread h1 h2
  rw [hp]
  exact ⟨rfl, endBackup_not_in_extractColumnIn dcName st (pyStrip line),
    rowsLogs_extractColumnIn dcName st (pyStrip line)⟩

/-- Witness for `completed_marker_ignored_while_reading` with the table still
open after one row. -/
theorem completed_marker_ignored_while_reading_witness :
    (processLine "dc" ⟨some 2, some 0, some 1, 1, true, some "dc_status"⟩
        "-- Completed backup").halt = false ∧
    Event.logEndBackup ∉
      (processLine "dc" ⟨some 2, some 0, some 1, 1, true, some "dc_status"⟩
        "-- Completed backup").events ∧
    rowsLogs
      (processLine "dc" ⟨some 2, some 0, some 1, 1, true, some "dc_status"⟩
        "-- Completed backup").events = [] :=
  completed_marker_ignored_while_reading "dc"
    ⟨some 2, some 0, some 1, 1, true, some "dc_status"⟩
    "-- Completed backup" (by decide) (by decide)

/-- Counterexample to C4 as stated: a stream ending in `-- Completed backup`
with the table section still open does not halt cleanly — the marker line is
consumed as a data row, its decode raises, the run ends in an error, the
`rows_read` count of the open table is never logged, and the end-of-backup
log never appears. -/
theorem completed_while_open_not_clean_halt_cex :
    (readCompressedXz "dc"
      ["COPY dc_status (timestamp, tzoffset, raw_packet)",
       "2020-01-01 00:00:00\t43200\t\\\\x00112233",
       "-- Completed backup"]).error = some RowError.indexError ∧
    rowsLogs (readCompressedXz "dc"
      ["COPY dc_status (timestamp, tzoffset, raw_packet)",
       "2020-01-01 00:00:00\t43200\t\\\\x00112233",
       "-- Completed backup"]).events = [] ∧
    Event.logEndBackup ∉ (readCompressedXz "dc"
      ["COPY dc_status (timestamp, tzoffset, raw_packet)",
       "2020-01-01 00:00:00\t43200\t\\\\x00112233",
       "-- Completed backup"]).events :=
  ⟨rfl, rfl, by decide⟩

/-- C5.  The raw-payload field is decoded by discarding exactly its first 3
characters and hex-decoding the remainder: any dispatched payload is the
hex decode of the field minus its first 3 characters, and the literal field
`\\x00112233` decodes to bytes `00 11 22 33` (also shown end-to-end on a
whole stream). -/
theorem payload_hex_decode_drop3 (dcName : String) (st : ReaderState)
    (line : String) (iT iZ iR : Nat) (tsF tzF rawF : String)
    (dt : PyDateTime) (off : Int) (packet : List Nat)
    (hT : st.g_col_timestamp = some iT)
    (hZ : st.g_col_tzoffset = some iZ)
    (hR : st.g_col_raw = some iR)
    (hcT : (pySplitTab line).get? iT = some tsF)
    (hcZ : (pySplitTab line).get? iZ = some tzF)
    (hcR : (pySplitTab line).get? iR = some rawF)
    (hts : parseTimestampField tsF.data = some dt)
    (hoff : pyInt tzF = some off)
    (hhex : pyFromHex (rawF.data.drop 3) = some packet) :
    ((extractColumnIn dcName st line).2.2 = none ∧
      (loadPayloads (extractColumnIn dcName st line).2.1 = [] ∨
        loadPayloads (extractColumnIn dcName st line).2.1 = [packet])) ∧
    pyFromHex ("\\\\x00112233".data.drop 3) =
      some [0x00, 0x11, 0x22, 0x33] ∧
    loadPayloads (readCompressedXz "dc"
      ["COPY dc_status (timestamp, tzoffset, raw_packet)",
       "2020-01-01 00:00:00\t43200\t\\\\x00112233"]).events =
      [[0x00, 0x11, 0x22, 0x33]] := by
  have hs := extractColumnIn_success dcName st line iT iZ iR tsF tzF rawF
    dt off packet hT hZ hR hcT hcZ hcR hts hoff hhex
  refine ⟨⟨by rw [hs], ?_⟩, by decide, rfl⟩
  rw [hs]
  simp only [loadPayloads_append, loadPayloads_progress, List.nil_append]
  exact loadPayloads_columnIn dcName st.g_table_name (st.g_lines_read + 1)
    ⟨dt, off⟩ packet

/-- Witness for `payload_hex_decode_drop3` on a concrete row. -/
theorem payload_hex_decode_drop3_witness :
    (((extractColumnIn "dc"
        ⟨some 2, some 0, some 1, 0, true, some "dc_status"⟩
        "2020-01-01 00:00:00\t43200\t\\\\x00112233").2.2 = none ∧
      (loadPayloads (extractColumnIn "dc"
          ⟨some 2, some 0, some 1, 0, true, some "dc_status"⟩
          "2020-01-01 00:00:00\t43200\t\\\\x00112233").2.1 = [] ∨
        loadPayloads (extractColumnIn "dc"
          ⟨some 2, some 0, some 1, 0, true, some "dc_status"⟩
          "2020-01-01 00:00:00\t43200\t\\\\x00112233").2.1 =
          [[0x00, 0x11, 0x22, 0x33]])) ∧
    pyFromHex ("\\\\x00112233".data.drop 3) =
      some [0x00, 0x11, 0x22, 0x33] ∧
    loadPayloads (readCompressedXz "dc"
      ["COPY dc_status (timestamp, tzoffset, raw_packet)",
       "2020-01-01 00:00:00\t43200\t\\\\x00112233"]).events =
      [[0x00, 0x11, 0x22, 0x33]]) :=
  payload_hex_decode_drop3 "dc"
    ⟨some 2, some 0, some 1, 0, true, some "dc_status"⟩
    "2020-01-01 00:00:00\t43200\t\\\\x00112233" 0 1 2
    "2020-01-01 00:00:00" "43200" "\\\\x00112233"
    ⟨2020, 1, 1, 0, 0, 0, 0⟩ 43200 [0x00, 0x11, 0x22, 0x33]
    (by decide) (by decide) (by decide) (by decide) (by decide) (by decide)
    (by decide) (by decide) (by decide)

/-- C7.  The tzoffset field is read as an integer number of seconds and
attached to the parsed timestamp as a fixed UTC offset, with the naive clock
fields unchanged (no calendar-aware conversion): any dispatched timestamp is
exactly the parsed datetime paired with the raw integer offset; end-to-end,
`"46800"` yields an offset of `13 * 3600` seconds (+13:00:00) and `"43200"`
yields `12 * 3600` (+12:00:00). -/
theorem tzoffset_fixed_utc_offset (dcName : String) (st : ReaderState)
    (line : String) (iT iZ iR : Nat) (tsF tzF rawF : String)
    (dt : PyDateTime) (off : Int) (packet : List Nat)
    (hT : st.g_col_timestamp = some iT)
    (hZ : st.g_col_tzoffset = some iZ)
    (hR : st.g_col_raw = some iR)
    (hcT : (pySplitTab line).get? iT = some tsF)
    (hcZ : (pySplitTab line).get? iZ = some tzF)
    (hcR : (pySplitTab line).get? iR = some rawF)
    (hts : parseTimestampField tsF.data = some dt)
    (hoff : pyInt tzF = some off)
    (hhex : pyFromHex (rawF.data.drop 3) = some packet) :
    ((extractColumnIn dcName st line).2.2 = none ∧
      (loadTimeFields (extractColumnIn dcName st line).2.1 = [] ∨
        loadTimeFields (extractColumnIn dcName st line).2.1 =
          [⟨dt, off⟩])) ∧
    loadTimeFields (readCompressedXz "dc"
      ["COPY dc_status (timestamp, tzoffset, raw_packet)",
       "2020-01-01 00:00:00\t46800\t\\\\x00112233"]).events =
      [⟨⟨2020, 1, 1, 0, 0, 0, 0⟩, 13 * 3600⟩] ∧
    loadTimeFields (readCompressedXz "dc"
      ["COPY dc_status (timestamp, tzoffset, raw_packet)",
       "2020-01-01 00:00:00\t43200\t\\\\x00112233"]).events =
      [⟨⟨2020, 1, 1, 0, 0, 0, 0⟩, 12 * 3600⟩] := by
  have hs := extractColumnIn_success dcName st line iT iZ iR tsF tzF rawF
    dt off packet hT hZ hR hcT hcZ hcR hts hoff hhex
  refine ⟨⟨by rw [hs], ?_⟩, rfl, rfl⟩
  rw [hs]
  simp only [loadTimeFields_append, loadTimeFields_progress, List.nil_append]
  exact loadTimeFields_columnIn dcName st.g_table_name (st.g_lines_read + 1)
    ⟨dt, off⟩ packet

/-- Witness for `tzoffset_fixed_utc_offset` on a concrete row with tzoffset
`46800`. -/
theorem tzoffset_fixed_utc_offset_witness :
    (((extractColumnIn "dc"
        ⟨some 2, some 0, some 1, 0, true, some "dc_status"⟩
        "2020-01-01 00:00:00\t46800\t\\\\x00112233").2.2 = none ∧
      (loadTimeFields (extractColumnIn "dc"
          ⟨some 2, some 0, some 1, 0, true, some "dc_status"⟩
          "2020-01-01 00:00:00\t46800\t\\\\x00112233").2.1 = [] ∨
        loadTimeFields (extractColumnIn "dc"
          ⟨some 2, some 0, some 1, 0, true, some "dc_status"⟩
          "2020-01-01 00:00:00\t46800\t\\\\x00112233").2.1 =
          [⟨⟨2020, 1, 1, 0, 0, 0, 0⟩, 46800⟩])) ∧
    loadTimeFields (readCompressedXz "dc"
      ["COPY dc_status (timestamp, tzoffset, raw_packet)",
       "2020-01-01 00:00:00\t46800\t\\\\x00112233"]).events =
      [⟨⟨2020, 1, 1, 0, 0, 0, 0⟩, 13 * 3600⟩] ∧
    loadTimeFields (readCompressedXz "dc"
      ["COPY dc_status (timestamp, tzoffset, raw_packet)",
       "2020-01-01 00:00:00\t43200\t\\\\x00112233"]).events =
      [⟨⟨2020, 1, 1, 0, 0, 0, 0⟩, 12 * 3600⟩]) :=
  tzoffset_fixed_utc_offset "dc"
    ⟨some 2, some 0, some 1, 0, true, some "dc_status"⟩
    "2020-01-01 00:00:00\t46800\t\\\\x00112233" 0 1 2
    "2020-01-01 00:00:00" "46800" "\\\\x00112233"
    ⟨2020, 1, 1, 0, 0, 0, 0⟩ 46800 [0x00, 0x11, 0x22, 0x33]
    (by decide) (by decide) (by decide) (by decide) (by decide) (by decide)
    (by decide) (by decide) (by decide)

/-- C8.  Timestamp parsing tries the fractional-seconds format first and
falls back to the second format only when the first fails; both example
strings parse, to values that differ only in the microsecond field. -/
theorem timestamp_two_formats :
    (∀ (cs : List Char) (t : PyDateTime),
      pyStrptimeFrac cs = some t → parseTimestampField cs = some t) ∧
    (∀ cs : List Char,
      pyStrptimeFrac cs = none →
        parseTimestampField cs = pyStrptimeNoFrac cs) ∧
    parseTimestampField "2020-01-01 00:00:00.123456".data =
      some ⟨2020, 1, 1, 0, 0, 0, 123456⟩ ∧
    parseTimestampField "2020-01-01 00:00:00".data =
      some ⟨2020, 1, 1, 0, 0, 0, 0⟩ ∧
    (⟨2020, 1, 1, 0, 0, 0, 123456⟩ : PyDateTime) =
      { (⟨2020, 1, 1, 0, 0, 0, 0⟩ : PyDateTime) with
          microsecond := 123456 } := by
  refine ⟨?_, ?_, by decide, by decide, rfl⟩
  · intro cs t h
    unfold parseTimestampField
    rw [h]
  · intro cs h
    unfold parseTimestampField
    rw [h]

/-- Witness for `timestamp_two_formats`: the fractional branch wins when it
parses, and the fallback is taken when it does not. -/
theorem timestamp_two_formats_witness :
    parseTimestampField "2021-06-15 12:30:45.5".data =
      some ⟨2021, 6, 15, 12, 30, 45, 500000⟩ ∧
    parseTimestampField "2021-06-15 12:30:45".data =
      pyStrptimeNoFrac "2021-06-15 12:30:45".data :=
  ⟨timestamp_two_formats.1 "2021-06-15 12:30:45.5".data
      ⟨2021, 6, 15, 12, 30, 45, 500000⟩ (by decide),
   timestamp_two_formats.2.1 "2021-06-15 12:30:45".data (by decide)⟩

end SolarLogger
